import Mathlib

/-!
# CivicGPT core: verified model of the text pipeline and sentiment scorer

This file is a shallow embedding, in Lean 4, of the two core components of
the CivicGPT repository:

* `utils/text_processor.py` (`TextProcessor`): cleaning, validation,
  extraction, statistics and truncation of social-media posts;
* `services/sentiment_analyzer.py` (`SentimentAnalyzer`): the two-signal
  sentiment blender and classifier.

Modelling conventions, fixed once here:

* A Python string is a sequence of Unicode code points; it is modelled as
  `List Char`, and `len` as `List.length`.
* Python `float` arithmetic is modelled by exact rational arithmetic.  The
  two float literals that occur in comparisons (`0.7`, `0.1`, `0.8`) are
  translated by cross-multiplication into exact integer comparisons
  (`x > len * 0.7` becomes `10 * x > 7 * len`), so that every definition is
  executable by the kernel; bridging lemmas restate those comparisons over
  `ℚ` in the percentage form used by the specification.
* The regular-expression classes of the source are modelled on the
  code-point universe exercised in this development: `\w` is
  `[A-Za-z0-9_]`, `\s` is ASCII whitespace, `[A-Z]` and `[!?]` are literal.
  CPython applies these classes to the full Unicode tables, but the two
  models agree on every string appearing in the theorems below.
* `unicodedata.normalize("NFKC", text)` is an external library call.  It is
  modelled character-wise by `nfkcChar`, which is the identity except on
  the compatibility character U+2026 (HORIZONTAL ELLIPSIS), which NFKC
  decomposes to three FULL STOP characters.  This agrees with Unicode NFKC
  on every string built from ASCII and U+2026, the universe used below;
  ASCII code points are all NFKC-invariant.
* The TextBlob and VADER libraries are external signal providers.
  `analyze_sentiment` wraps calls to them in `try/except`; it is modelled
  as a function of the two signal outcomes, each an `Except` value, so
  that both the success path and the fallback path of the source are
  captured.
-/

namespace CivicGPT

/-! ## Character classes (text_processor.py regular expressions) -/

/-- Python `\s` on the ASCII range: the six whitespace characters. -/
def isPySpace (c : Char) : Bool :=
  c = ' ' || c = '\t' || c = '\n' || c = '\x0d' || c = '\x0b' || c = '\x0c'

/-- Python `\w` on the ASCII range: letters, digits and underscore. -/
def isWordChar (c : Char) : Bool :=
  c.isAlphanum || c = '_'

/-- Unicode NFKC normalization, character-wise, on the universe used in this
development: the identity except that U+2026 decomposes to three dots. -/
def nfkcChar (c : Char) : List Char :=
  if c = '…' then ['.', '.', '.'] else [c]

/-- `unicodedata.normalize("NFKC", text)` (line 33 of text_processor.py). -/
def nfkc (s : List Char) : List Char :=
  s.flatMap nfkcChar

/-- The punctuation allow-list of `re.sub(r'[^\w\s@#.,!?;:()\-_\x27"]', '', text)`
(line 42 of text_processor.py). -/
def allowedPunct : List Char :=
  ['@', '#', '.', ',', '!', '?', ';', ':', '(', ')', '-', '_', Char.ofNat 39, '"']

/-- A character survives the removal step of `clean_text` iff it is a word
character, whitespace, or listed punctuation. -/
def isAllowed (c : Char) : Bool :=
  isWordChar c || isPySpace c || allowedPunct.contains c

/-- `re.sub(r'\s+', ' ', text)` (line 36 of text_processor.py): every maximal
run of whitespace becomes a single space. -/
def collapseWs : List Char → List Char
  | [] => []
  | [c] => if isPySpace c then [' '] else [c]
  | a :: b :: rest =>
    if isPySpace a && isPySpace b then collapseWs (b :: rest)
    else (if isPySpace a then ' ' else a) :: collapseWs (b :: rest)

/-- Python `str.strip()` (line 39 of text_processor.py). -/
def pyStrip (s : List Char) : List Char :=
  (((s.dropWhile isPySpace).reverse.dropWhile isPySpace)).reverse

/-- `TextProcessor.clean_text` (text_processor.py lines 19-44): NFKC
normalization, whitespace collapsing, stripping, then character removal,
in that order. -/
def clean_text (s : List Char) : List Char :=
  if s = [] then []
  else (pyStrip (collapseWs (nfkc s))).filter isAllowed

/-! ## Structural lemmas about the cleaning pipeline -/

/-- Every character of `collapseWs s` is either a space or a non-whitespace
character of `s`. -/
theorem collapseWs_mem :
    ∀ (s : List Char), ∀ c ∈ collapseWs s, c = ' ' ∨ (c ∈ s ∧ isPySpace c = false)
  | [] => by simp [collapseWs]
  | [a] => by
    by_cases h : isPySpace a <;> simp_all [collapseWs]
  | a :: b :: rest => by
    intro c hc
    by_cases h : isPySpace a && isPySpace b
    · simp only [collapseWs, h, if_true] at hc
      rcases collapseWs_mem (b :: rest) c hc with h1 | ⟨h1, h2⟩
      · exact Or.inl h1
      · exact Or.inr ⟨List.mem_cons_of_mem a h1, h2⟩
    · simp only [collapseWs, h, if_false] at hc
      rcases List.mem_cons.mp hc with h1 | h1
      · by_cases ha : isPySpace a
        · simp only [ha, if_true] at h1
          exact Or.inl h1
        · simp only [ha, if_false] at h1
          subst h1
          exact Or.inr ⟨List.mem_cons_self _ _, by simpa using ha⟩
      · rcases collapseWs_mem (b :: rest) c h1 with h2 | ⟨h2, h3⟩
        · exact Or.inl h2
        · exact Or.inr ⟨List.mem_cons_of_mem a h2, h3⟩

/-- `collapseWs` never lengthens a string. -/
theorem collapseWs_length_le :
    ∀ (s : List Char), (collapseWs s).length ≤ s.length
  | [] => by simp [collapseWs]
  | [a] => by by_cases h : isPySpace a <;> simp [collapseWs, h]
  | a :: b :: rest => by
    by_cases h : isPySpace a && isPySpace b
    · simp only [collapseWs, h, if_true]
      exact le_trans (collapseWs_length_le (b :: rest)) (by simp)
    · simp only [collapseWs, h, if_false, List.length_cons]
      exact Nat.succ_le_succ (collapseWs_length_le (b :: rest))

/-- Adjacent-whitespace freedom, as a chain relation. -/
def NoWsPair (s : List Char) : Prop :=
  List.Chain' (fun x y => ¬(isPySpace x = true ∧ isPySpace y = true)) s

theorem noWsPair_nil : NoWsPair [] := List.chain'_nil

/-- If its head is not whitespace, `collapseWs` keeps the head in place. -/
theorem collapseWs_cons_of_not_space (b : Char) (rest : List Char)
    (hb : isPySpace b = false) :
    collapseWs (b :: rest) = b :: collapseWs rest := by
  cases rest with
  | nil => simp [collapseWs, hb]
  | cons r rs => simp [collapseWs, hb]

/-- The output of `collapseWs` never contains two adjacent whitespace
characters. -/
theorem collapseWs_noWsPair :
    ∀ (s : List Char), NoWsPair (collapseWs s)
  | [] => by simp [collapseWs, NoWsPair]
  | [a] => by by_cases h : isPySpace a <;> simp [collapseWs, NoWsPair, h]
  | a :: b :: rest => by
    by_cases h : isPySpace a && isPySpace b
    · simpa only [collapseWs, h, if_true] using collapseWs_noWsPair (b :: rest)
    · simp only [collapseWs, h, if_false]
      have ih := collapseWs_noWsPair (b :: rest)
      rcases Bool.and_eq_false_iff.mp (Bool.eq_false_iff.mpr h) with ha | hb
      · refine List.chain'_cons'.mpr ⟨?_, ih⟩
        intro y _
        simp [ha]
      · have hcons := collapseWs_cons_of_not_space b rest hb
        refine List.chain'_cons'.mpr ⟨?_, ih⟩
        intro y hy
        rw [hcons] at hy
        simp only [List.head?_cons, Option.mem_def, Option.some.injEq] at hy
        subst hy
        simp [hb]

theorem dropWhile_head_false (p : Char → Bool) :
    ∀ (l : List Char), ∀ c ∈ (l.dropWhile p).head?, p c = false
  | [] => by simp
  | a :: t => by
    by_cases h : p a
    · simpa [List.dropWhile_cons, h] using dropWhile_head_false p t
    · simp_all [List.dropWhile_cons]

theorem mem_of_mem_dropWhile (p : Char → Bool) (l : List Char) (c : Char)
    (h : c ∈ l.dropWhile p) : c ∈ l :=
  (List.dropWhile_suffix p).sublist.subset h

theorem chain'_dropWhile (R : Char → Char → Prop) (p : Char → Bool) :
    ∀ (l : List Char), List.Chain' R l → List.Chain' R (l.dropWhile p)
  | [] => fun h => h
  | a :: t => fun h => by
    by_cases hp : p a
    · simpa [List.dropWhile_cons, hp] using chain'_dropWhile R p t (List.chain'_cons'.mp h).2
    · simpa [List.dropWhile_cons, hp] using h

theorem dropWhile_getLast? (p : Char → Bool) :
    ∀ (l : List Char), l.dropWhile p ≠ [] → (l.dropWhile p).getLast? = l.getLast?
  | [] => fun h => absurd rfl h
  | a :: t => fun h => by
    by_cases hp : p a
    · rw [List.dropWhile_cons, if_pos hp] at h ⊢
      have ht : t ≠ [] := by
        intro he
        subst he
        exact h rfl
      obtain ⟨b, rs, rfl⟩ := List.exists_cons_of_ne_nil ht
      rw [dropWhile_getLast? p (b :: rs) h, List.getLast?_cons_cons]
    · rw [List.dropWhile_cons, if_neg hp]

theorem dropWhile_eq_self_of_head (p : Char → Bool) (l : List Char)
    (h : ∀ c ∈ l.head?, p c = false) : l.dropWhile p = l := by
  cases l with
  | nil => rfl
  | cons a t =>
    have := h a (by simp)
    simp [List.dropWhile_cons, this]

/-- The normal form produced by collapsing and stripping: no adjacent
whitespace, all whitespace is a plain space, and no whitespace at either
edge. -/
def NormalWs (z : List Char) : Prop :=
  NoWsPair z ∧ (∀ c ∈ z, isPySpace c = true → c = ' ') ∧
    (∀ c ∈ z.head?, isPySpace c = false) ∧ (∀ c ∈ z.getLast?, isPySpace c = false)

theorem stripCollapse_mem (y : List Char) (c : Char)
    (h : c ∈ pyStrip (collapseWs y)) : c = ' ' ∨ (c ∈ y ∧ isPySpace c = false) := by
  have h1 : c ∈ collapseWs y := by
    have h2 := List.mem_reverse.mp h
    have h3 := mem_of_mem_dropWhile _ _ _ h2
    have h4 := List.mem_reverse.mp h3
    exact mem_of_mem_dropWhile _ _ _ h4
  exact collapseWs_mem y c h1

theorem stripCollapse_normal (y : List Char) : NormalWs (pyStrip (collapseWs y)) := by
  set s := collapseWs y with hs
  set u := s.dropWhile isPySpace with hu
  set v := u.reverse.dropWhile isPySpace with hv
  have hz : pyStrip (collapseWs y) = v.reverse := rfl
  have hchain_s : NoWsPair s := collapseWs_noWsPair y
  have hchain_u : NoWsPair u := chain'_dropWhile _ _ _ hchain_s
  have hchain_ur : NoWsPair u.reverse := by
    rw [NoWsPair, List.chain'_reverse]
    exact hchain_u.imp (fun a b hab => by
      intro hcon
      exact hab ⟨hcon.2, hcon.1⟩)
  have hchain_v : NoWsPair v := chain'_dropWhile _ _ _ hchain_ur
  refine ⟨?_, ?_, ?_, ?_⟩
  · rw [hz, NoWsPair, List.chain'_reverse]
    exact hchain_v.imp (fun a b hab => by
      intro hcon
      exact hab ⟨hcon.2, hcon.1⟩)
  · intro c hc hws
    rcases stripCollapse_mem y c (hz ▸ hc) with h | ⟨_, h⟩
    · exact h
    · rw [hws] at h
      exact absurd h (by simp)
  · intro c hc
    rw [hz, List.head?_reverse] at hc
    by_cases hnil : v = []
    · rw [hnil] at hc
      simp at hc
    · rw [hv, dropWhile_getLast? _ _ (hv ▸ hnil), List.getLast?_reverse] at hc
      exact dropWhile_head_false _ _ c hc
  · intro c hc
    rw [hz, List.getLast?_reverse] at hc
    exact dropWhile_head_false _ _ c hc

theorem isAllowed_nfkcChar (c : Char) (h : isAllowed c = true) : nfkcChar c = [c] := by
  by_cases hc : c = '…'
  · subst hc
    exact absurd h (by decide)
  · simp [nfkcChar, hc]

theorem nfkc_eq_self (s : List Char) (h : ∀ c ∈ s, nfkcChar c = [c]) : nfkc s = s := by
  induction s with
  | nil => rfl
  | cons a t ih =>
    have ha := h a (List.mem_cons_self _ _)
    have ht := ih (fun c hc => h c (List.mem_cons_of_mem a hc))
    simp only [nfkc] at ht ⊢
    rw [List.flatMap_cons, ha, ht]
    rfl

theorem collapseWs_eq_self :
    ∀ (z : List Char), NoWsPair z → (∀ c ∈ z, isPySpace c = true → c = ' ') →
      collapseWs z = z
  | [] => fun _ _ => rfl
  | [a] => fun _ hws => by
    by_cases h : isPySpace a
    · have := hws a (by simp) h
      simp [collapseWs, h, this]
    · simp [collapseWs, h]
  | a :: b :: rest => fun hch hws => by
    have hab : ¬(isPySpace a = true ∧ isPySpace b = true) :=
      (List.chain'_cons'.mp hch).1 b (by simp)
    have hab' : (isPySpace a && isPySpace b) = false := by
      rcases Bool.eq_false_or_eq_true (isPySpace a) with h | h
      · rcases Bool.eq_false_or_eq_true (isPySpace b) with h2 | h2
        · exact absurd ⟨h, h2⟩ hab
        · rw [h, h2]
          rfl
      · rw [h]
        rfl
    have ih := collapseWs_eq_self (b :: rest) (List.chain'_cons'.mp hch).2
      (fun c hc hw => hws c (List.mem_cons_of_mem a hc) hw)
    simp only [collapseWs, hab', Bool.false_eq_true, if_false, ih]
    by_cases ha : isPySpace a
    · rw [if_pos ha, hws a (by simp) ha]
    · rw [if_neg ha]

theorem pyStrip_eq_self (z : List Char)
    (hh : ∀ c ∈ z.head?, isPySpace c = false)
    (hl : ∀ c ∈ z.getLast?, isPySpace c = false) : pyStrip z = z := by
  rw [pyStrip, dropWhile_eq_self_of_head _ _ hh, dropWhile_eq_self_of_head, List.reverse_reverse]
  rw [List.head?_reverse]
  exact hl

theorem clean_text_of_normal (z : List Char) (hn : NormalWs z)
    (ha : ∀ c ∈ z, isAllowed c = true) : clean_text z = z := by
  obtain ⟨h1, h2, h3, h4⟩ := hn
  by_cases hz : z = []
  · simp [clean_text, hz]
  · rw [clean_text, if_neg hz, nfkc_eq_self z (fun c hc => isAllowed_nfkcChar c (ha c hc)),
      collapseWs_eq_self z h1 h2, pyStrip_eq_self z h3 h4]
    exact List.filter_eq_self.mpr ha

theorem clean_text_mem_allowed (s : List Char) (c : Char)
    (h : c ∈ clean_text s) : isAllowed c = true := by
  by_cases hs : s = []
  · rw [clean_text, if_pos hs] at h
    exact absurd h (List.not_mem_nil c)
  · rw [clean_text, if_neg hs] at h
    exact List.of_mem_filter h

theorem clean_text_of_allowed (y : List Char) (ha : ∀ c ∈ y, isAllowed c = true) :
    clean_text y = pyStrip (collapseWs y) := by
  by_cases hy : y = []
  · subst hy
    rfl
  · rw [clean_text, if_neg hy, nfkc_eq_self y (fun c hc => isAllowed_nfkcChar c (ha c hc))]
    refine List.filter_eq_self.mpr ?_
    intro c hc
    rcases stripCollapse_mem y c hc with h | ⟨h, _⟩
    · subst h
      decide
    · exact ha c h

theorem pyStrip_length_le (l : List Char) : (pyStrip l).length ≤ l.length := by
  rw [pyStrip, List.length_reverse]
  calc ((l.dropWhile isPySpace).reverse.dropWhile isPySpace).length
      ≤ (l.dropWhile isPySpace).reverse.length :=
        (List.dropWhile_suffix _).sublist.length_le
    _ = (l.dropWhile isPySpace).length := List.length_reverse _
    _ ≤ l.length := (List.dropWhile_suffix _).sublist.length_le

/-! ## Claim C2: idempotence of `clean_text` -/

/-- Claim C2, counterexample: `clean_text` is not idempotent.  On
`"a / b"` the character filter removes the `/` that separated two spaces,
so the first pass returns `"a  b"` (double space) and the second pass
collapses it to `"a b"`. -/
theorem clean_text_not_idempotent :
    clean_text (clean_text ['a', ' ', '/', ' ', 'b']) ≠
      clean_text ['a', ' ', '/', ' ', 'b'] := by
  decide

/-- Claim C2, amended: one application of `clean_text` need not be a fixed
point (the character-removal step, which runs after whitespace collapsing
and stripping, can create new double spaces or edge spaces), but the result
of cleaning twice always is: for every string `x`,
`clean(clean(clean(x))) = clean(clean(x))`. -/
theorem clean_text_idempotent_from_second (s : List Char) :
    clean_text (clean_text (clean_text s)) = clean_text (clean_text s) := by
  have hy : ∀ c ∈ clean_text s, isAllowed c = true := clean_text_mem_allowed s
  rw [clean_text_of_allowed (clean_text s) hy]
  exact clean_text_of_normal _ (stripCollapse_normal _) (fun c hc => by
    rcases stripCollapse_mem _ c hc with h | ⟨h, _⟩
    · subst h
      decide
    · exact hy c h)

/-! ## Claim C3: `clean_text` and length -/

/-- Claim C3, counterexample: cleaning can lengthen its input.  NFKC
normalization expands U+2026 (HORIZONTAL ELLIPSIS, one code point) to three
FULL STOP characters, all of which are on the allow-list, so
`len(clean("…")) = 3 > 1 = len("…")`. -/
theorem clean_text_can_lengthen :
    ¬ ((clean_text ['…']).length ≤ (['…'] : List Char).length) := by
  decide

/-- Claim C3, amended: `clean` never lengthens its input whose characters
are all NFKC-invariant (in particular any ASCII input); the whitespace
collapsing, stripping and filtering steps only remove or preserve
characters, and only the initial NFKC normalization can expand. -/
theorem clean_text_length_le (s : List Char) (h : ∀ c ∈ s, nfkcChar c = [c]) :
    (clean_text s).length ≤ s.length := by
  by_cases hs : s = []
  · simp [clean_text, hs]
  · rw [clean_text, if_neg hs, nfkc_eq_self s h]
    calc ((pyStrip (collapseWs s)).filter isAllowed).length
        ≤ (pyStrip (collapseWs s)).length := List.length_filter_le _ _
      _ ≤ (collapseWs s).length := pyStrip_length_le _
      _ ≤ s.length := collapseWs_length_le s

/-- Witness for the amended claim C3 at the concrete input `"ab!"`. -/
theorem clean_text_length_le_witness :
    (∀ c ∈ ['a', 'b', '!'], nfkcChar c = [c]) ∧
      (clean_text ['a', 'b', '!']).length ≤ (['a', 'b', '!'] : List Char).length :=
  ⟨by decide, clean_text_length_le ['a', 'b', '!'] (by decide)⟩

/-! ## Validation, extraction and statistics (text_processor.py lines 46-159) -/

/-- `re.search(r'(.)\1{3,}', text)` (line 84): four or more equal consecutive
characters. -/
def has_four_repeat : List Char → Bool
  | a :: b :: c :: d :: rest => (a == b && b == c && c == d) || has_four_repeat (b :: c :: d :: rest)
  | _ => false

/-- The word-repetition loop of `_has_excessive_repetition` (lines 88-91):
the same word three times consecutively. -/
def has_triple_word : List (List Char) → Bool
  | a :: b :: c :: rest => (a == b && b == c) || has_triple_word (b :: c :: rest)
  | _ => false

/-- Python `str.split()` with no separator: split on whitespace runs,
dropping empty chunks. -/
def pySplit (s : List Char) : List (List Char) :=
  (s.splitOnP isPySpace).filter (fun w => !w.isEmpty)

/-- `TextProcessor._has_excessive_repetition` (lines 81-93). -/
def has_excessive_repetition (s : List Char) : Bool :=
  has_four_repeat s || has_triple_word (pySplit s)

/-- `len(re.findall(r'[A-Z]', text))` (line 98). -/
def countUpperAZ (s : List Char) : ℕ :=
  (s.filter (fun c => 'A' ≤ c && c ≤ 'Z')).length

/-- `len(re.findall(r'[!?]', text))` (line 102). -/
def countBangQm (s : List Char) : ℕ :=
  (s.filter (fun c => c = '!' || c = '?')).length

/-- Is the first character a word character? -/
def headIsWordChar : List Char → Bool
  | [] => false
  | c :: _ => isWordChar c

/-- The matches of `re.findall(r'#(\w+)', text)` (with `marker = '#'`) or of
`re.findall(r'@(\w+)', text)` (with `marker = '@'`), each match reported as
its captured word run (the token without the marker), in order and with
multiplicity.  A `findall` match starts at every marker character followed
by a word character; since the marker is not itself a word character it can
never occur inside the word run of a previous match, so scanning every
position (rather than skipping over consumed matches) yields exactly the
non-overlapping matches of the Python scanner. -/
def tagMatches (marker : Char) : List Char → List (List Char)
  | [] => []
  | c :: rest =>
    if c = marker && headIsWordChar rest then
      rest.takeWhile isWordChar :: tagMatches marker rest
    else tagMatches marker rest

/-- `TextProcessor._is_spam_like` (lines 95-109).  The float comparisons
`count > len * 0.7` and `count > len * 0.1` are modelled exactly as
`10 * count > 7 * len` and `10 * count > len`. -/
def is_spam_like (s : List Char) : Bool :=
  decide (10 * countUpperAZ s > 7 * s.length) ||
    decide (10 * countBangQm s > s.length) ||
    decide ((tagMatches '#' s).length > 10)

/-- `TextProcessor.extract_hashtags` (lines 111-114): `list(set(...))`
deduplication is modelled by `List.dedup`; Python set order is unspecified,
and every property proved below depends only on membership and length. -/
def extract_hashtags (s : List Char) : List (List Char) :=
  (tagMatches '#' s).dedup

/-- `TextProcessor.extract_mentions` (lines 116-119). -/
def extract_mentions (s : List Char) : List (List Char) :=
  (tagMatches '@' s).dedup

/-- The character class of the URL pattern (line 123):
`(?:[a-zA-Z]|[0-9]|[$-_@.&+]|[!*\\(\\),]|(?:%[0-9a-fA-F][0-9a-fA-F]))+`.
`[$-_]` is the code-point range U+0024..U+005F, which subsumes the digits,
the uppercase letters and every other listed symbol except `!` and the
lowercase letters. -/
def urlChar (c : Char) : Bool :=
  c = '!' || ('$' ≤ c && c ≤ '_') || ('a' ≤ c && c ≤ 'z')

/-- One attempted match of the URL pattern at the head of the input:
`http`, an optional `s`, `://`, then a nonempty maximal run of URL
characters.  Returns the match and the remaining input. -/
def matchUrlAt : List Char → Option (List Char × List Char)
  | 'h' :: 't' :: 't' :: 'p' :: 's' :: ':' :: '/' :: '/' :: r =>
    if (r.takeWhile urlChar).isEmpty then none
    else some (['h', 't', 't', 'p', 's', ':', '/', '/'] ++ r.takeWhile urlChar,
      r.dropWhile urlChar)
  | 'h' :: 't' :: 't' :: 'p' :: ':' :: '/' :: '/' :: r =>
    if (r.takeWhile urlChar).isEmpty then none
    else some (['h', 't', 't', 'p', ':', '/', '/'] ++ r.takeWhile urlChar,
      r.dropWhile urlChar)
  | _ => none

/-- The left-to-right non-overlapping scan of `re.findall` for the URL
pattern.  The fuel argument is instantiated with the input length; every
step consumes at least one character (a successful match consumes at least
eight), so that fuel always suffices. -/
def scanUrls : ℕ → List Char → List (List Char)
  | 0, _ => []
  | _ + 1, [] => []
  | fuel + 1, c :: rest =>
    match matchUrlAt (c :: rest) with
    | some (m, rem) => m :: scanUrls fuel rem
    | none => scanUrls fuel rest

/-- `TextProcessor.extract_urls` (lines 121-125). -/
def extract_urls (s : List Char) : List (List Char) :=
  (scanUrls s.length s).dedup

/-- Validation error message (line 60). -/
def emptyError : String := "Post cannot be empty"

/-- Validation error message (line 65), with the configured maximum length
interpolated. -/
def lengthErrorMsg (m : ℕ) : String :=
  "Post exceeds maximum length of " ++ toString m ++ " characters"

/-- Validation error message (line 69). -/
def minLengthError : String := "Post must be at least 3 characters long"

/-- Validation error message (line 73). -/
def repetitionError : String := "Post contains excessive repetition"

/-- Validation error message (line 77). -/
def spamError : String := "Post appears to be spam-like"

/-- `TextProcessor.validate_post` (lines 46-79).  `maxLength` is the
configured `settings.max_post_length` (default 280).  The empty /
whitespace-only check returns immediately; otherwise the four rule errors
are appended in source order and validity is emptiness of the error
list. -/
def validate_post (maxLength : ℕ) (text : List Char) : Bool × List String :=
  if text = [] ∨ pyStrip text = [] then (false, [emptyError])
  else
    let errors :=
      (if text.length > maxLength then [lengthErrorMsg maxLength] else []) ++
        (if (pyStrip text).length < 3 then [minLengthError] else []) ++
        (if has_excessive_repetition text = true then [repetitionError] else []) ++
        (if is_spam_like text = true then [spamError] else [])
    (errors.isEmpty, errors)

/-- The record returned by `TextProcessor.get_text_stats` (lines 127-142). -/
structure PostStats where
  original_length : ℕ
  cleaned_length : ℕ
  word_count : ℕ
  character_count : ℕ
  hashtag_count : ℕ
  mention_count : ℕ
  url_count : ℕ
  hashtags : List (List Char)
  mentions : List (List Char)
  urls : List (List Char)

/-- `TextProcessor.get_text_stats` (lines 127-142): length fields from the
cleaned text, extraction fields from the original text. -/
def get_text_stats (text : List Char) : PostStats :=
  { original_length := text.length
    cleaned_length := (clean_text text).length
    word_count := (pySplit (clean_text text)).length
    character_count := (clean_text text).length
    hashtag_count := (extract_hashtags text).length
    mention_count := (extract_mentions text).length
    url_count := (extract_urls text).length
    hashtags := extract_hashtags text
    mentions := extract_mentions text
    urls := extract_urls text }

/-- Python slicing `s[:k]`, for an arbitrary (possibly negative) integer
bound: a negative bound counts from the end, clamped at zero. -/
def pyTake (k : ℤ) (s : List Char) : List Char :=
  if k < 0 then s.take (s.length - (-k).toNat) else s.take k.toNat

/-- Python `s.rfind(' ')` (line 154): the largest index holding a space, or
`-1` when there is none. -/
def pyRfindSpace : List Char → ℤ
  | [] => -1
  | c :: rest =>
    if pyRfindSpace rest ≥ 0 then pyRfindSpace rest + 1
    else if c = ' ' then 0 else -1

/-- `TextProcessor.truncate_text` (lines 144-159).  The float comparison
`last_space > max_length * 0.8` is modelled exactly as
`10 * last_space > 8 * max_length`. -/
def truncate_text (text : List Char) (maxLength : ℤ) : List Char :=
  if (text.length : ℤ) ≤ maxLength then text
  else
    let truncated := pyTake (maxLength - 3) text ++ ['.', '.', '.']
    if 10 * pyRfindSpace truncated > 8 * maxLength then
      pyTake (pyRfindSpace truncated) truncated ++ ['.', '.', '.']
    else truncated

/-! ## Bridging lemmas: exact integer thresholds vs. percentage form -/

/-- `10 * a > 7 * b` is exactly the comparison `a > b * 0.7` over ℚ. -/
theorem upper_ratio_iff (a b : ℕ) : 10 * a > 7 * b ↔ ((a : ℚ) > (b : ℚ) * (7/10)) := by
  rw [gt_iff_lt, gt_iff_lt, ← Nat.cast_lt (α := ℚ)]
  push_cast
  constructor <;> intro h <;> linarith

/-- `10 * a > b` is exactly the comparison `a > b * 0.1` over ℚ. -/
theorem bang_ratio_iff (a b : ℕ) : 10 * a > b ↔ ((a : ℚ) > (b : ℚ) * (1/10)) := by
  rw [gt_iff_lt, gt_iff_lt, ← Nat.cast_lt (α := ℚ)]
  push_cast
  constructor <;> intro h <;> linarith

/-! ## Helper lemmas for validation -/

theorem isPySpace_cases (c : Char) (h : isPySpace c = true) :
    c = ' ' ∨ c = '\t' ∨ c = '\n' ∨ c = '\x0d' ∨ c = '\x0b' ∨ c = '\x0c' := by
  have h2 := h
  simp only [isPySpace, Bool.or_eq_true, decide_eq_true_eq] at h2
  tauto

theorem ws_not_upper (c : Char) (h : isPySpace c = true) :
    ('A' ≤ c && c ≤ 'Z') = false := by
  rcases isPySpace_cases c h with h | h | h | h | h | h <;> subst h <;> decide

theorem ws_not_bang (c : Char) (h : isPySpace c = true) :
    (c = '!' || c = '?') = false := by
  rcases isPySpace_cases c h with h | h | h | h | h | h <;> subst h <;> decide

theorem ws_ne_hash (c : Char) (h : isPySpace c = true) : c ≠ '#' := by
  rcases isPySpace_cases c h with h | h | h | h | h | h <;> subst h <;> decide

theorem tagMatches_eq_nil (marker : Char) :
    ∀ (s : List Char), (∀ c ∈ s, c ≠ marker) → tagMatches marker s = []
  | [] => fun _ => rfl
  | c :: rest => fun h => by
    have hc : (c = marker) = False := by
      simp [h c (List.mem_cons_self _ _)]
    simp only [tagMatches, decide_eq_true_eq, hc, decide_False, Bool.false_and,
      Bool.false_eq_true, if_false]
    exact tagMatches_eq_nil marker rest (fun d hd => h d (List.mem_cons_of_mem c hd))

/-- All characters of a string whose `strip` is empty are whitespace. -/
theorem allWs_of_pyStrip_nil (s : List Char) (h : pyStrip s = []) :
    ∀ c ∈ s, isPySpace c = true := by
  rw [pyStrip, List.reverse_eq_nil_iff] at h
  have h2 : ∀ c ∈ (s.dropWhile isPySpace).reverse, isPySpace c = true :=
    List.dropWhile_eq_nil_iff.mp h
  have h3 : ∀ c ∈ s.dropWhile isPySpace, isPySpace c = true := by
    intro c hc
    exact h2 c (List.mem_reverse.mpr hc)
  intro c hc
  rw [← List.takeWhile_append_dropWhile (p := isPySpace) (l := s)] at hc
  rcases List.mem_append.mp hc with h4 | h4
  · exact List.mem_takeWhile_imp h4
  · exact h3 c h4

theorem mem_ite_nil (a x : String) (P : Prop) [Decidable P] :
    (a ∈ if P then [x] else []) ↔ P ∧ a = x := by
  split
  · simp_all [List.mem_singleton]
  · simp_all

/-- The interpolated length message has length `42 + len(str(max_length))`. -/
theorem lengthErrorMsg_length (m : ℕ) :
    (lengthErrorMsg m).length = 42 + (toString m).length := by
  have h1 : ("Post exceeds maximum length of " : String).length = 31 := by decide
  have h2 : (" characters" : String).length = 11 := by decide
  rw [lengthErrorMsg, String.length_append, String.length_append, h1, h2]
  omega

/-- No fixed message of length below 42 can collide with the interpolated
length message, whatever the configured maximum is. -/
theorem ne_lengthErrorMsg (s : String) (m : ℕ) (hs : s.length < 42) :
    s ≠ lengthErrorMsg m := by
  intro h
  have h2 := congrArg String.length h
  rw [lengthErrorMsg_length m] at h2
  omega

/-! ## Claim C10: internal consistency of the statistics record -/

/-- Claim C10: in every `get_text_stats` record, `character_count` equals
`cleaned_length` (both are the length of the cleaned text), and each of
`hashtag_count`, `mention_count`, `url_count` is the length of the
corresponding deduplicated list field. -/
theorem get_text_stats_consistent (text : List Char) :
    (get_text_stats text).character_count = (get_text_stats text).cleaned_length ∧
      (get_text_stats text).hashtag_count = (get_text_stats text).hashtags.length ∧
      (get_text_stats text).mention_count = (get_text_stats text).mentions.length ∧
      (get_text_stats text).url_count = (get_text_stats text).urls.length :=
  ⟨rfl, rfl, rfl, rfl⟩

/-! ## Claim C9: negative max_length is accepted silently -/

/-- Claim C9 (code bug): `truncate_text` with a negative `max_length` does
not fail fast.  With Python slice semantics, `truncate("hello", -1)`
computes `"hello"[:-4] + "..."` and silently returns the normal-looking
string `"h..."`. -/
theorem truncate_text_negative_silent :
    truncate_text ['h', 'e', 'l', 'l', 'o'] (-1) = ['h', '.', '.', '.'] := by
  decide

/-! ## Claim C6: the spam-like heuristic -/

/-- Claim C6, counterexample: the hashtag heuristic counts hashtag
occurrences with multiplicity, not distinct hashtags.  The text
`"#a " * 11` (eleven occurrences of the single distinct hashtag `a`)
receives the spam-like error although it has only one distinct hashtag and
triggers neither the capitalization nor the punctuation condition. -/
theorem spam_error_counts_multiplicity :
    spamError ∈ (validate_post 280 (List.flatten (List.replicate 11 ['#', 'a', ' ']))).2 ∧
      (extract_hashtags (List.flatten (List.replicate 11 ['#', 'a', ' ']))).length ≤ 10 ∧
      ¬ ((countUpperAZ (List.flatten (List.replicate 11 ['#', 'a', ' '])) : ℚ) >
          ((List.flatten (List.replicate 11 ['#', 'a', ' '])).length : ℚ) * (7/10)) ∧
      ¬ ((countBangQm (List.flatten (List.replicate 11 ['#', 'a', ' '])) : ℚ) >
          ((List.flatten (List.replicate 11 ['#', 'a', ' '])).length : ℚ) * (1/10)) := by
  refine ⟨by decide, by decide, fun h => absurd ((upper_ratio_iff _ _).mpr h) (by decide),
    fun h => absurd ((bang_ratio_iff _ _).mpr h) (by decide)⟩

/-- Claim C6, amended: `validate` reports the spam-like error for a text
exactly when uppercase A-Z letters exceed 70% of the text's total length,
or `!`/`?` characters exceed 10% of the text's total length, or the text
contains more than 10 hashtag occurrences counted with multiplicity (not
deduplicated); each condition independently triggers the same single
spam-like error. -/
theorem spam_error_iff (maxLength : ℕ) (text : List Char) :
    spamError ∈ (validate_post maxLength text).2 ↔
      ((countUpperAZ text : ℚ) > (text.length : ℚ) * (7/10) ∨
        (countBangQm text : ℚ) > (text.length : ℚ) * (1/10) ∨
        10 < (tagMatches '#' text).length) := by
  have hspam : is_spam_like text = true ↔
      ((countUpperAZ text : ℚ) > (text.length : ℚ) * (7/10) ∨
        (countBangQm text : ℚ) > (text.length : ℚ) * (1/10) ∨
        10 < (tagMatches '#' text).length) := by
    rw [is_spam_like]
    simp only [Bool.or_eq_true, decide_eq_true_eq]
    rw [upper_ratio_iff, bang_ratio_iff]
    tauto
  by_cases hemp : text = [] ∨ pyStrip text = []
  · rw [validate_post, if_pos hemp]
    constructor
    · intro hmem
      exact absurd hmem (by decide)
    · intro hr
      exfalso
      have hu : countUpperAZ text = 0 := by
        rcases hemp with he | hstr
        · subst he
          decide
        · rw [countUpperAZ, List.length_eq_zero]
          exact List.filter_eq_nil_iff.mpr
            (fun c hc => by simp [ws_not_upper c (allWs_of_pyStrip_nil text hstr c hc)])
      have hb : countBangQm text = 0 := by
        rcases hemp with he | hstr
        · subst he
          decide
        · rw [countBangQm, List.length_eq_zero]
          exact List.filter_eq_nil_iff.mpr
            (fun c hc => by simp [ws_not_bang c (allWs_of_pyStrip_nil text hstr c hc)])
      have ht : tagMatches '#' text = [] := by
        rcases hemp with he | hstr
        · subst he
          rfl
        · exact tagMatches_eq_nil '#' text
            (fun c hc => ws_ne_hash c (allWs_of_pyStrip_nil text hstr c hc))
      rcases hr with h | h | h
      · rw [hu] at h
        have h0 : (0 : ℚ) ≤ (text.length : ℚ) * (7/10) := by positivity
        push_cast at h
        linarith
      · rw [hb] at h
        have h0 : (0 : ℚ) ≤ (text.length : ℚ) * (1/10) := by positivity
        push_cast at h
        linarith
      · rw [ht] at h
        simp at h
  · rw [validate_post, if_neg hemp, ← hspam]
    simp only [List.mem_append, mem_ite_nil]
    have h1 : spamError ≠ lengthErrorMsg maxLength := ne_lengthErrorMsg _ _ (by decide)
    have h2 : spamError ≠ minLengthError := by decide
    have h3 : spamError ≠ repetitionError := by decide
    simp [h1, h2, h3]

/-! ## Claim C8: validation aggregation and the empty short-circuit -/

/-- Claim C8: an empty or whitespace-only input yields `is_valid = False`
with exactly the single error `"Post cannot be empty"` and no other rule
contributes; `is_valid` is true exactly when the error list is empty; and
for every non-empty input each applicable rule error is present exactly
when its condition holds. -/
theorem validate_post_spec (maxLength : ℕ) (text : List Char) :
    ((text = [] ∨ pyStrip text = []) →
        validate_post maxLength text = (false, [emptyError])) ∧
      ((validate_post maxLength text).1 = true ↔ (validate_post maxLength text).2 = []) ∧
      (¬ (text = [] ∨ pyStrip text = []) →
        ((lengthErrorMsg maxLength ∈ (validate_post maxLength text).2 ↔
            maxLength < text.length) ∧
          (minLengthError ∈ (validate_post maxLength text).2 ↔ (pyStrip text).length < 3) ∧
          (repetitionError ∈ (validate_post maxLength text).2 ↔
            has_excessive_repetition text = true) ∧
          (spamError ∈ (validate_post maxLength text).2 ↔ is_spam_like text = true))) := by
  have hne1 : minLengthError ≠ lengthErrorMsg maxLength := ne_lengthErrorMsg _ _ (by decide)
  have hne2 : repetitionError ≠ lengthErrorMsg maxLength := ne_lengthErrorMsg _ _ (by decide)
  have hne3 : spamError ≠ lengthErrorMsg maxLength := ne_lengthErrorMsg _ _ (by decide)
  refine ⟨?_, ?_, ?_⟩
  · intro h
    rw [validate_post, if_pos h]
  · by_cases h : text = [] ∨ pyStrip text = []
    · rw [validate_post, if_pos h]
      simp
    · rw [validate_post, if_neg h]
      simp [List.isEmpty_iff]
  · intro h
    rw [validate_post, if_neg h]
    rw [List.mem_append, List.mem_append, List.mem_append,
      mem_ite_nil, mem_ite_nil, mem_ite_nil, mem_ite_nil]
    rw [List.mem_append, List.mem_append, List.mem_append,
      mem_ite_nil, mem_ite_nil, mem_ite_nil, mem_ite_nil]
    rw [List.mem_append, List.mem_append, List.mem_append,
      mem_ite_nil, mem_ite_nil, mem_ite_nil, mem_ite_nil]
    rw [List.mem_append, List.mem_append, List.mem_append,
      mem_ite_nil, mem_ite_nil, mem_ite_nil, mem_ite_nil]
    refine ⟨?_, ?_, ?_, ?_⟩
    · constructor
      · rintro (((⟨hc, _⟩ | ⟨_, hx⟩) | ⟨_, hx⟩) | ⟨_, hx⟩)
        · exact hc
        · exact absurd hx (Ne.symm hne1)
        · exact absurd hx (Ne.symm hne2)
        · exact absurd hx (Ne.symm hne3)
      · intro hc
        exact Or.inl (Or.inl (Or.inl ⟨hc, rfl⟩))
    · constructor
      · rintro (((⟨_, hx⟩ | ⟨hc, _⟩) | ⟨_, hx⟩) | ⟨_, hx⟩)
        · exact absurd hx hne1
        · exact hc
        · exact absurd hx (by decide)
        · exact absurd hx (by decide)
      · intro hc
        exact Or.inl (Or.inl (Or.inr ⟨hc, rfl⟩))
    · constructor
      · rintro (((⟨_, hx⟩ | ⟨_, hx⟩) | ⟨hc, _⟩) | ⟨_, hx⟩)
        · exact absurd hx hne2
        · exact absurd hx (by decide)
        · exact hc
        · exact absurd hx (by decide)
      · intro hc
        exact Or.inl (Or.inr ⟨hc, rfl⟩)
    · constructor
      · rintro (((⟨_, hx⟩ | ⟨_, hx⟩) | ⟨_, hx⟩) | ⟨hc, _⟩)
        · exact absurd hx hne3
        · exact absurd hx (by decide)
        · exact absurd hx (by decide)
        · exact hc
      · intro hc
        exact Or.inr ⟨hc, rfl⟩

/-! ## Claim C7: word-boundary truncation -/

/-- `pyRfindSpace` is the last index of a space: either there is no space
and the result is `-1`, or the result is the index of a space with no space
after it. -/
theorem pyRfindSpace_spec :
    ∀ (s : List Char),
      (pyRfindSpace s = -1 ∧ ∀ i : ℕ, s.get? i ≠ some ' ') ∨
        (∃ j : ℕ, pyRfindSpace s = (j : ℤ) ∧ s.get? j = some ' ' ∧
          ∀ k : ℕ, j < k → s.get? k ≠ some ' ')
  | [] => by
    left
    refine ⟨rfl, ?_⟩
    intro i
    simp
  | c :: rest => by
    rcases pyRfindSpace_spec rest with ⟨h1, h2⟩ | ⟨j, h1, h2, h3⟩
    · have hneg : ¬ pyRfindSpace rest ≥ 0 := by
        rw [h1]
        decide
      by_cases hc : c = ' '
      · right
        refine ⟨0, ?_, ?_, ?_⟩
        · rw [pyRfindSpace, if_neg hneg, if_pos hc]
          norm_num
        · rw [List.get?_cons_zero, hc]
        · intro k hk
          obtain ⟨k', rfl⟩ := Nat.exists_eq_succ_of_ne_zero (Nat.pos_iff_ne_zero.mp hk)
          rw [List.get?_cons_succ]
          exact h2 k'
      · left
        refine ⟨?_, ?_⟩
        · rw [pyRfindSpace, if_neg hneg, if_neg hc]
        · intro i
          cases i with
          | zero =>
            rw [List.get?_cons_zero]
            intro hcon
            exact hc (Option.some.inj hcon)
          | succ i' =>
            rw [List.get?_cons_succ]
            exact h2 i'
    · have hpos : pyRfindSpace rest ≥ 0 := by
        rw [h1]
        exact Int.ofNat_nonneg j
      right
      refine ⟨j + 1, ?_, ?_, ?_⟩
      · rw [pyRfindSpace, if_pos hpos, h1]
        push_cast
        ring
      · rw [List.get?_cons_succ]
        exact h2
      · intro k hk
        have hk0 : k ≠ 0 := by omega
        obtain ⟨k', rfl⟩ := Nat.exists_eq_succ_of_ne_zero hk0
        rw [List.get?_cons_succ]
        exact h3 k' (Nat.lt_of_succ_lt_succ hk)

/-- Claim C7, counterexample to the boundary case: with `max_length = 20`
and a text whose last space inside the cut sits at index 16, exactly 80% of
`max_length`, the claim ("at or after 80%") demands the word-boundary cut,
but the code uses a strict comparison (`last_space > max_length * 0.8`) and
keeps the space: the result ends in `"a ..."`, not `"a..."`. -/
theorem truncate_text_boundary :
    pyRfindSpace (pyTake (20 - 3) (List.replicate 16 'a' ++ [' ', 'b', 'c', 'd', 'e', 'f', 'g'])
        ++ ['.', '.', '.']) = 16 ∧
      (16 : ℚ) = (20 : ℚ) * (8/10) ∧
      truncate_text (List.replicate 16 'a' ++ [' ', 'b', 'c', 'd', 'e', 'f', 'g']) 20 =
        List.replicate 16 'a' ++ [' ', '.', '.', '.'] ∧
      truncate_text (List.replicate 16 'a' ++ [' ', 'b', 'c', 'd', 'e', 'f', 'g']) 20 ≠
        List.replicate 16 'a' ++ ['.', '.', '.'] := by
  refine ⟨by decide, by norm_num, by decide, by decide⟩

/-- Claim C7, amended: for every text and integer `max_length ≥ 3` (so that
"the first `max_length - 3` characters" is meaningful): a fitting text is
returned unchanged; otherwise the cut is the first `max_length - 3`
characters followed by `"..."`, except that when a space exists strictly
after 80% of `max_length` within that cut (exactly: space index `i` with
`10 * i > 8 * max_length`), the cut is shortened to end just before its
last space before `"..."` is appended. -/
theorem truncate_text_spec (text : List Char) (m : ℤ) (hm : 3 ≤ m) :
    ((text.length : ℤ) ≤ m → truncate_text text m = text) ∧
      (m < (text.length : ℤ) →
        ((∃ i : ℕ, (text.take (m - 3).toNat ++ ['.', '.', '.']).get? i = some ' ' ∧
              10 * (i : ℤ) > 8 * m) →
            ∃ j : ℕ, (text.take (m - 3).toNat ++ ['.', '.', '.']).get? j = some ' ' ∧
              (∀ k : ℕ, j < k →
                (text.take (m - 3).toNat ++ ['.', '.', '.']).get? k ≠ some ' ') ∧
              10 * (j : ℤ) > 8 * m ∧
              truncate_text text m =
                (text.take (m - 3).toNat ++ ['.', '.', '.']).take j ++ ['.', '.', '.']) ∧
          ((∀ i : ℕ, (text.take (m - 3).toNat ++ ['.', '.', '.']).get? i = some ' ' →
              ¬ (10 * (i : ℤ) > 8 * m)) →
            truncate_text text m = text.take (m - 3).toNat ++ ['.', '.', '.'])) := by
  have hcut : pyTake (m - 3) text = text.take (m - 3).toNat := by
    rw [pyTake, if_neg (by omega)]
  constructor
  · intro hle
    rw [truncate_text, if_pos hle]
  · intro hlt
    have hunfold : truncate_text text m =
        if 10 * pyRfindSpace (text.take (m - 3).toNat ++ ['.', '.', '.']) > 8 * m then
          pyTake (pyRfindSpace (text.take (m - 3).toNat ++ ['.', '.', '.']))
            (text.take (m - 3).toNat ++ ['.', '.', '.']) ++ ['.', '.', '.']
        else text.take (m - 3).toNat ++ ['.', '.', '.'] := by
      rw [truncate_text, if_neg (by omega), hcut]
    constructor
    · rintro ⟨i, hi_sp, hi_gt⟩
      rcases pyRfindSpace_spec (text.take (m - 3).toNat ++ ['.', '.', '.']) with
        ⟨_, hnone⟩ | ⟨j, hj, hj_sp, hj_last⟩
      · exact absurd hi_sp (hnone i)
      · have hij : i ≤ j := by
          by_contra hcon
          exact hj_last i (Nat.lt_of_not_le hcon) hi_sp
        have hj_gt : 10 * (j : ℤ) > 8 * m := by
          have hle2 : (i : ℤ) ≤ (j : ℤ) := Int.ofNat_le.mpr hij
          omega
        refine ⟨j, hj_sp, hj_last, hj_gt, ?_⟩
        rw [hunfold, if_pos (by rw [hj]; exact hj_gt), hj, pyTake,
          if_neg (by omega), Int.toNat_natCast]
    · intro hno
      rcases pyRfindSpace_spec (text.take (m - 3).toNat ++ ['.', '.', '.']) with
        ⟨hval, _⟩ | ⟨j, hj, hj_sp, _⟩
      · rw [hunfold, if_neg (by rw [hval]; omega)]
      · rw [hunfold, if_neg (by rw [hj]; exact hno j hj_sp)]

/-- Witness for the amended claim C7 at `text = "abcdefgh"`, `max_length = 6`:
there is no space in the cut, so the result is the plain cut `"abc..."`. -/
theorem truncate_text_spec_witness :
    (3 : ℤ) ≤ 6 ∧
      truncate_text ['a', 'b', 'c', 'd', 'e', 'f', 'g', 'h'] 6 =
        (['a', 'b', 'c', 'd', 'e', 'f', 'g', 'h'] : List Char).take ((6 : ℤ) - 3).toNat ++
          ['.', '.', '.'] :=
  ⟨by decide,
    ((truncate_text_spec ['a', 'b', 'c', 'd', 'e', 'f', 'g', 'h'] 6 (by decide)).2
        (by decide)).2
      (fun i hi => absurd (List.get?_mem hi) (by decide))⟩

/-! ## Sentiment scorer (sentiment_analyzer.py) -/

/-- TextBlob output (the first signal): polarity and subjectivity. -/
structure TextBlobSignal where
  polarity : ℚ
  subjectivity : ℚ

/-- VADER output (the second signal): the compound score and the three
sub-fractions. -/
structure VaderScores where
  compound : ℚ
  pos : ℚ
  neg : ℚ
  neu : ℚ

/-- The details block of the sentiment record. -/
structure SentimentDetails where
  textblob : TextBlobSignal
  vader : VaderScores
  combined : ℚ

/-- The record returned by `SentimentAnalyzer.analyze_sentiment`. -/
structure SentimentRecord where
  sentiment : String
  confidence : ℚ
  score : ℚ
  explanation : String
  details : SentimentDetails

/-- `SentimentAnalyzer._combine_sentiment_scores` (lines 67-85):
`max(-1.0, min(1.0, 0.3 * textblob + 0.7 * vader.compound))`. -/
def combine_sentiment_scores (textblob_score : ℚ) (vader_scores : VaderScores) : ℚ :=
  max (-1) (min 1 ((3/10) * textblob_score + (7/10) * vader_scores.compound))

/-- `SentimentAnalyzer._classify_sentiment` (lines 87-111), returning the
classification and its confidence.  The thresholds are `0.1` and `-0.1`,
and the divisors are written as in the source (`1.0 - 0.1` and
`-0.1 + 1.0`, both equal to `0.9`). -/
def classify_sentiment (score : ℚ) : String × ℚ :=
  if score > 1/10 then ("positive", min 1 ((score - 1/10) / (1 - 1/10)))
  else if score < -(1/10) then ("negative", min 1 ((-(1/10) - score) / (-(1/10) + 1)))
  else ("neutral", 1 - |score|)

/-- `SentimentAnalyzer._generate_sentiment_explanation` (lines 113-157):
the first canned sentence of the classification, then an optional
subjectivity clause, then an optional intensity clause.  (In the source a
classification outside the three keys would raise a `KeyError`; inside
`analyze_sentiment` the classification is always one of the three, and the
final branch here is the `"neutral"` sentence.) -/
def generate_sentiment_explanation (classification : String)
    (score subjectivity : ℚ) : String :=
  let base :=
    if classification = "positive" then
      "The post has a positive tone that could engage your audience well."
    else if classification = "negative" then
      "The post may come across as negative or critical."
    else "The post has a balanced, neutral tone."
  let base2 :=
    if subjectivity > 7/10 then base ++ " The content is quite subjective and personal."
    else if subjectivity < 3/10 then base ++ " The content is objective and factual."
    else base
  if |score| > 7/10 then base2 ++ " The sentiment is strongly expressed."
  else if |score| < 2/10 then base2 ++ " The sentiment is subtle and understated."
  else base2

/-- `SentimentAnalyzer._get_fallback_sentiment` (lines 159-171). -/
def get_fallback_sentiment : SentimentRecord :=
  { sentiment := "neutral"
    confidence := 1/2
    score := 0
    explanation := "Sentiment analysis was unable to process this text."
    details :=
      { textblob := { polarity := 0, subjectivity := 1/2 }
        vader := { compound := 0, pos := 0, neg := 0, neu := 1 }
        combined := 0 } }

/-- `SentimentAnalyzer.analyze_sentiment` (lines 19-65).  The two external
signal computations are passed in as `Except` outcomes; the source wraps
them in `try/except` and answers with the fallback record whenever either
raises, and otherwise combines, classifies and explains. -/
def analyze_sentiment (textblobResult : Except String TextBlobSignal)
    (vaderResult : Except String VaderScores) : SentimentRecord :=
  match textblobResult, vaderResult with
  | Except.ok tb, Except.ok vader =>
    { sentiment := (classify_sentiment (combine_sentiment_scores tb.polarity vader)).1
      confidence := (classify_sentiment (combine_sentiment_scores tb.polarity vader)).2
      score := combine_sentiment_scores tb.polarity vader
      explanation := generate_sentiment_explanation
        (classify_sentiment (combine_sentiment_scores tb.polarity vader)).1
        (combine_sentiment_scores tb.polarity vader) tb.subjectivity
      details :=
        { textblob := tb
          vader := vader
          combined := combine_sentiment_scores tb.polarity vader } }
  | _, _ => get_fallback_sentiment

/-! ## Claim C1: combination and classification -/

/-- Claim C1: whenever both signals succeed, the returned score is
`clamp(0.3 * polarity + 0.7 * compound, -1, 1)`, and the classification is
`"positive"` when the combined score exceeds `0.1`, `"negative"` when it is
below `-0.1`, and `"neutral"` otherwise. -/
theorem analyze_sentiment_combine_classify (tb : TextBlobSignal) (v : VaderScores) :
    (analyze_sentiment (Except.ok tb) (Except.ok v)).score =
        max (-1) (min 1 ((3/10) * tb.polarity + (7/10) * v.compound)) ∧
      (analyze_sentiment (Except.ok tb) (Except.ok v)).sentiment =
        (if (analyze_sentiment (Except.ok tb) (Except.ok v)).score > 1/10 then "positive"
          else if (analyze_sentiment (Except.ok tb) (Except.ok v)).score < -(1/10) then
            "negative"
          else "neutral") := by
  refine ⟨rfl, ?_⟩
  have hsc : (analyze_sentiment (Except.ok tb) (Except.ok v)).score =
      combine_sentiment_scores tb.polarity v := rfl
  have hsent : (analyze_sentiment (Except.ok tb) (Except.ok v)).sentiment =
      (classify_sentiment (combine_sentiment_scores tb.polarity v)).1 := rfl
  rw [hsc, hsent, classify_sentiment]
  split_ifs <;> rfl

/-! ## Claim C4: graceful fallback -/

/-- Claim C4: whenever either signal computation fails, `analyze_sentiment`
returns (never raises) the fixed fallback record: neutral, confidence 0.5,
score 0.0, the could-not-process explanation, and the fixed detail block
whose signal values (polarity and compound, as well as the pos/neg
fractions) are zero. -/
theorem analyze_sentiment_fallback (tbRes : Except String TextBlobSignal)
    (vRes : Except String VaderScores)
    (h : tbRes.isOk = false ∨ vRes.isOk = false) :
    analyze_sentiment tbRes vRes = get_fallback_sentiment ∧
      (analyze_sentiment tbRes vRes).sentiment = "neutral" ∧
      (analyze_sentiment tbRes vRes).confidence = 1/2 ∧
      (analyze_sentiment tbRes vRes).score = 0 ∧
      (analyze_sentiment tbRes vRes).explanation =
        "Sentiment analysis was unable to process this text." ∧
      (analyze_sentiment tbRes vRes).details =
        { textblob := { polarity := 0, subjectivity := 1/2 }
          vader := { compound := 0, pos := 0, neg := 0, neu := 1 }
          combined := 0 } := by
  cases tbRes with
  | error e => exact ⟨rfl, rfl, rfl, rfl, rfl, rfl⟩
  | ok tb =>
    cases vRes with
    | error e => exact ⟨rfl, rfl, rfl, rfl, rfl, rfl⟩
    | ok v =>
      rcases h with h | h <;> exact absurd h (by simp [Except.isOk, Except.toBool])

/-- Witness for claim C4: a failing TextBlob signal with a healthy VADER
signal still produces the fallback record. -/
theorem analyze_sentiment_fallback_witness :
    ((Except.error "signal failure" : Except String TextBlobSignal).isOk = false ∨
        (Except.ok ⟨0, 0, 0, 1⟩ : Except String VaderScores).isOk = false) ∧
      analyze_sentiment (Except.error "signal failure") (Except.ok ⟨0, 0, 0, 1⟩) =
        get_fallback_sentiment :=
  ⟨Or.inl rfl,
    (analyze_sentiment_fallback (Except.error "signal failure")
        (Except.ok ⟨0, 0, 0, 1⟩) (Or.inl rfl)).1⟩

/-! ## Claim C5: confidence formulas and bounds -/

/-- Claim C5: on every successful call the confidence is
`min(1, (score - 0.1) / 0.9)` for a positive classification,
`min(1, (-0.1 - score) / 0.9)` for a negative one, and `1 - |score|` for a
neutral one; and on every call (fallback included) the returned score lies
in `[-1, 1]` and the returned confidence in `[0, 1]`. -/
theorem analyze_sentiment_confidence (tbRes : Except String TextBlobSignal)
    (vRes : Except String VaderScores) :
    (-1 ≤ (analyze_sentiment tbRes vRes).score ∧
        (analyze_sentiment tbRes vRes).score ≤ 1 ∧
        0 ≤ (analyze_sentiment tbRes vRes).confidence ∧
        (analyze_sentiment tbRes vRes).confidence ≤ 1) ∧
      (∀ tb v, tbRes = Except.ok tb → vRes = Except.ok v →
        (((analyze_sentiment tbRes vRes).sentiment = "positive" →
            (analyze_sentiment tbRes vRes).confidence =
              min 1 (((analyze_sentiment tbRes vRes).score - 1/10) / (9/10))) ∧
          ((analyze_sentiment tbRes vRes).sentiment = "negative" →
            (analyze_sentiment tbRes vRes).confidence =
              min 1 ((-(1/10) - (analyze_sentiment tbRes vRes).score) / (9/10))) ∧
          ((analyze_sentiment tbRes vRes).sentiment = "neutral" →
            (analyze_sentiment tbRes vRes).confidence =
              1 - |(analyze_sentiment tbRes vRes).score|))) := by
  cases tbRes with
  | error e =>
    refine ⟨by norm_num [analyze_sentiment, get_fallback_sentiment], ?_⟩
    intro tb v h1 _
    exact absurd h1 (by simp)
  | ok tb =>
    cases vRes with
    | error e =>
      refine ⟨by norm_num [analyze_sentiment, get_fallback_sentiment], ?_⟩
      intro tb2 v h1 h2
      exact absurd h2 (by simp)
    | ok v =>
      have hx1 : -1 ≤ combine_sentiment_scores tb.polarity v := le_max_left _ _
      have hx2 : combine_sentiment_scores tb.polarity v ≤ 1 :=
        max_le (by norm_num) (min_le_left _ _)
      have hsc : (analyze_sentiment (Except.ok tb) (Except.ok v)).score =
          combine_sentiment_scores tb.polarity v := rfl
      have hsent : (analyze_sentiment (Except.ok tb) (Except.ok v)).sentiment =
          (classify_sentiment (combine_sentiment_scores tb.polarity v)).1 := rfl
      have hconf : (analyze_sentiment (Except.ok tb) (Except.ok v)).confidence =
          (classify_sentiment (combine_sentiment_scores tb.polarity v)).2 := rfl
      set x := combine_sentiment_scores tb.polarity v with hxdef
      by_cases hp : x > 1/10
      · have hcls : classify_sentiment x = ("positive", min 1 ((x - 1/10) / (1 - 1/10))) := by
          rw [classify_sentiment, if_pos hp]
        have hcls1 : (classify_sentiment x).1 = "positive" := by rw [hcls]
        have hcls2 : (classify_sentiment x).2 = min 1 ((x - 1/10) / (1 - 1/10)) := by rw [hcls]
        have hd : (1 : ℚ) - 1/10 = 9/10 := by norm_num
        refine ⟨⟨hx1, hx2, ?_, ?_⟩, ?_⟩
        · rw [hconf, hcls2]
          refine le_min (by norm_num) (div_nonneg (by linarith) (by norm_num))
        · rw [hconf, hcls2]
          exact min_le_left _ _
        · intro tb2 v2 h1 h2
          refine ⟨fun _ => ?_, fun hneg => ?_, fun hneu => ?_⟩
          · rw [hconf, hsc, hcls2, hd]
          · rw [hsent, hcls1] at hneg
            exact absurd hneg (by decide)
          · rw [hsent, hcls1] at hneu
            exact absurd hneu (by decide)
      · by_cases hn : x < -(1/10)
        · have hcls : classify_sentiment x =
              ("negative", min 1 ((-(1/10) - x) / (-(1/10) + 1))) := by
            rw [classify_sentiment, if_neg hp, if_pos hn]
          have hcls1 : (classify_sentiment x).1 = "negative" := by rw [hcls]
          have hcls2 : (classify_sentiment x).2 = min 1 ((-(1/10) - x) / (-(1/10) + 1)) := by
            rw [hcls]
          have hd : (-(1/10) : ℚ) + 1 = 9/10 := by norm_num
          refine ⟨⟨hx1, hx2, ?_, ?_⟩, ?_⟩
          · rw [hconf, hcls2]
            refine le_min (by norm_num) (div_nonneg (by linarith) (by norm_num))
          · rw [hconf, hcls2]
            exact min_le_left _ _
          · intro tb2 v2 h1 h2
            refine ⟨fun hpos => ?_, fun _ => ?_, fun hneu => ?_⟩
            · rw [hsent, hcls1] at hpos
              exact absurd hpos (by decide)
            · rw [hconf, hsc, hcls2, hd]
            · rw [hsent, hcls1] at hneu
              exact absurd hneu (by decide)
        · have hcls : classify_sentiment x = ("neutral", 1 - |x|) := by
            rw [classify_sentiment, if_neg hp, if_neg hn]
          have hcls1 : (classify_sentiment x).1 = "neutral" := by rw [hcls]
          have hcls2 : (classify_sentiment x).2 = 1 - |x| := by rw [hcls]
          have habs : |x| ≤ 1/10 := abs_le.mpr ⟨by linarith, by linarith⟩
          have habs0 : 0 ≤ |x| := abs_nonneg x
          refine ⟨⟨hx1, hx2, ?_, ?_⟩, ?_⟩
          · rw [hconf, hcls2]
            linarith
          · rw [hconf, hcls2]
            linarith
          · intro tb2 v2 h1 h2
            refine ⟨fun hpos => ?_, fun hneg => ?_, fun _ => ?_⟩
            · rw [hsent, hcls1] at hpos
              exact absurd hpos (by decide)
            · rw [hsent, hcls1] at hneg
              exact absurd hneg (by decide)
            · rw [hconf, hsc, hcls2]

/-- Witness for claim C5 at a concrete successful call with a strongly
positive VADER compound. -/
theorem analyze_sentiment_confidence_witness :
    0 ≤ (analyze_sentiment (Except.ok ⟨1, 0⟩) (Except.ok ⟨1, 0, 0, 0⟩)).confidence :=
  (analyze_sentiment_confidence (Except.ok ⟨1, 0⟩) (Except.ok ⟨1, 0, 0, 0⟩)).1.2.2.1

/-- Witness for claim C8 at the empty input: the single-error short-circuit. -/
theorem validate_post_spec_witness :
    validate_post 280 [] = (false, [emptyError]) :=
  (validate_post_spec 280 []).1 (Or.inl rfl)
